import Mathlib

/-!
# Verification of the DISNET / DrugCombDB integration pipeline

Shallow embedding of the core of the `disnet-data-integration` repository:
the score/classification engine (`pipeline/DCDB/score_pipeline.py`), the
domain models (`domain/models.py`), the drug-combination repository
(`repo/drugcomb_repo.py`), the staged drug and cell-line resolution
pipelines (`pipeline/DCDB/drug_pipeline.py`,
`pipeline/DCDB/cell_line_pipeline.py`), the batch orchestrator
(`pipeline/DCDB/orchestrator.py`) and the legacy drug-name normalization
(`pipeline/dbdb_pipeline.py`).

Python floats are modelled as exact rationals (`ℚ`), Python ints as `ℤ`
(auto-increment ids as `ℕ`), SQL tables as lists of rows, and external
APIs as oracle functions returning `Except String`, where `.error e`
models a raised exception with message `e`.
-/

namespace DCDB

/-! ## Python `round(x, 4)` (models `Score.__post_init__`) -/

/-- Round-half-to-even of a rational to an integer, the semantics of
Python's built-in `round` for the tie-free and tie cases. -/
def roundHalfEven (q : ℚ) : ℤ :=
  if q - ⌊q⌋ < 1/2 then ⌊q⌋
  else if 1/2 < q - ⌊q⌋ then ⌊q⌋ + 1
  else if ⌊q⌋ % 2 = 0 then ⌊q⌋ else ⌊q⌋ + 1

/-- Python `round(x, 4)` from `Score.__post_init__` (`domain/models.py`):
`self.score_value = round(self.score_value, 4)`. -/
def pyRound4 (q : ℚ) : ℚ := (roundHalfEven (q * 10000) : ℚ) / 10000

/-! ## `domain/models.py`: `Score` -/

/-- The `Score` dataclass of `domain/models.py`. -/
structure Score where
  score_name : String
  score_value : ℚ
  score_id : Option ℤ := none
deriving Repr, DecidableEq

/-- Constructing a `Score` runs `__post_init__`, which rounds the value to
4 decimal places. -/
def mkScore (name : String) (value : ℚ) (id : Option ℤ) : Score :=
  { score_name := name, score_value := pyRound4 value, score_id := id }

/-! ## `pipeline/DCDB/score_pipeline.py`: `ScorePipeline.run` -/

/-- The constant `eps = 1e-5` from `ScorePipeline.run`. -/
def eps : ℚ := 1/100000

/-- The `score_mappings` dict of `ScorePipeline.run`, in insertion order. -/
def scoreMappings (hsa bliss loewe zip : Option ℚ) : List (String × Option ℚ) :=
  [("HSA", hsa), ("Bliss", bliss), ("Loewe", loewe), ("ZIP", zip)]

/-- One iteration of the `for score_name, score_value in score_mappings.items()`
loop of `ScorePipeline.run`: skip `None`, otherwise append the (rounded)
`Score` and update the running vote counter from the raw value.
`getId` models `self.score_repo.get_or_create_score`. -/
def scoreStep (getId : String → ℤ) (acc : List Score × ℤ) (p : String × Option ℚ) :
    List Score × ℤ :=
  match p.2 with
  | none => acc
  | some v =>
    (acc.1 ++ [mkScore p.1 v (some (getId p.1))],
     if v < -eps then acc.2 - 1 else if v > eps then acc.2 + 1 else acc.2)

/-- The expression `classification = (classification > 0) - (classification < 0)`, the final
sign clamp of `ScorePipeline.run`. -/
def pySign (c : ℤ) : ℤ := (if c > 0 then 1 else 0) - (if c < 0 then 1 else 0)

/-- Model of `ScorePipeline.run(hsa, bliss, loewe, zip)` returning
`(scores, classification)`. -/
def scorePipelineRun (getId : String → ℤ) (hsa bliss loewe zip : Option ℚ) :
    List Score × ℤ :=
  let r := (scoreMappings hsa bliss loewe zip).foldl (scoreStep getId) ([], 0)
  (r.1, pySign r.2)

/-! Specification-side vocabulary used to state the claims about
`ScorePipeline.run`. -/

/-- The per-score classification vote as the specification describes it:
`+1` strictly above `+eps`, `-1` strictly below `-eps`, `0` otherwise. -/
def scoreVote (v : ℚ) : ℤ := if v < -eps then -1 else if v > eps then 1 else 0

/-- The present (non-null) `(name, value)` pairs, in mapping order. -/
def presentScores (hsa bliss loewe zip : Option ℚ) : List (String × ℚ) :=
  (scoreMappings hsa bliss loewe zip).filterMap (fun p => p.2.map (fun v => (p.1, v)))

/-- The mathematical sign function on `ℤ` used by the spec's
"classification = sign of the sum of votes". -/
def signSpec (c : ℤ) : ℤ := if 0 < c then 1 else if c < 0 then -1 else 0

theorem pySign_eq_signSpec (c : ℤ) : pySign c = signSpec c := by
  unfold pySign signSpec
  split_ifs <;> omega

theorem foldl_scoreStep (getId : String → ℤ) (l : List (String × Option ℚ))
    (acc : List Score × ℤ) :
    l.foldl (scoreStep getId) acc =
      (acc.1 ++ (l.filterMap (fun p => p.2.map (fun v => (p.1, v)))).map
          (fun p => mkScore p.1 p.2 (some (getId p.1))),
       acc.2 + ((l.filterMap (fun p => p.2.map (fun v => (p.1, v)))).map
          (fun p => scoreVote p.2)).sum) := by
  induction l generalizing acc with
  | nil => simp
  | cons p l ih =>
    obtain ⟨n, v⟩ := p
    cases v with
    | none => simp [List.foldl_cons, scoreStep, ih]
    | some v =>
      have hvote : (if v < -eps then acc.2 - 1 else if v > eps then acc.2 + 1 else acc.2)
          = acc.2 + scoreVote v := by
        unfold scoreVote; split_ifs <;> omega
      simp only [List.foldl_cons, scoreStep, ih, List.filterMap_cons, Option.map_some',
        Prod.mk.injEq, List.map_cons, List.sum_cons, hvote]
      refine ⟨by simp, by ring⟩

/-- Closed form of `ScorePipeline.run`: the returned scores are the rounded
present inputs in mapping order, and the classification is the sign of the
sum of the per-score votes computed from the raw values. -/
theorem scorePipelineRun_eq (getId : String → ℤ) (h b l z : Option ℚ) :
    scorePipelineRun getId h b l z =
      ((presentScores h b l z).map (fun p => mkScore p.1 p.2 (some (getId p.1))),
       signSpec (((presentScores h b l z).map (fun p => scoreVote p.2)).sum)) := by
  unfold scorePipelineRun presentScores
  rw [foldl_scoreStep]
  simp [pySign_eq_signSpec]

/-- C1: `ScorePipeline.run` returns one `Score` per non-null input, with the
stored value rounded to 4 decimal places, and a classification equal to the
sign of the sum of per-score votes (`+1` above `1e-5`, `-1` below `-1e-5`,
`0` otherwise); an all-null input yields no scores and classification `0`,
and the spec's literal cases hold: `classify(10,10,-5,-5) = 0`,
`classify(10,10,10,-50) = 1`, `classify(None,None,None,12.5) = 1` with
exactly one score. -/
theorem scorePipelineRun_classification_correct :
    ∀ (getId : String → ℤ) (hsa bliss loewe zip : Option ℚ),
      (scorePipelineRun getId hsa bliss loewe zip).1 =
        (presentScores hsa bliss loewe zip).map
          (fun p => mkScore p.1 p.2 (some (getId p.1))) ∧
      (scorePipelineRun getId hsa bliss loewe zip).2 =
        signSpec (((presentScores hsa bliss loewe zip).map (fun p => scoreVote p.2)).sum) ∧
      scorePipelineRun getId none none none none = ([], 0) ∧
      (scorePipelineRun getId (some 10) (some 10) (some (-5)) (some (-5))).2 = 0 ∧
      (scorePipelineRun getId (some 10) (some 10) (some 10) (some (-50))).2 = 1 ∧
      (scorePipelineRun getId none none none (some (25/2))).2 = 1 ∧
      (scorePipelineRun getId none none none (some (25/2))).1.length = 1 := by
  intro getId hsa bliss loewe zip
  have hsnd : ∀ (h b l z : Option ℚ),
      (scorePipelineRun getId h b l z).2 =
        signSpec (((presentScores h b l z).map (fun p => scoreVote p.2)).sum) := by
    intro h b l z
    rw [scorePipelineRun_eq]
  refine ⟨by rw [scorePipelineRun_eq], by rw [scorePipelineRun_eq], rfl, ?_, ?_, ?_, ?_⟩
  · refine (hsnd _ _ _ _).trans ?_
    simp only [presentScores, scoreMappings, List.filterMap_cons, List.filterMap_nil,
      Option.map_some', List.map_cons, List.map_nil, List.sum_cons, List.sum_nil]
    norm_num [scoreVote, signSpec, eps]
  · refine (hsnd _ _ _ _).trans ?_
    simp only [presentScores, scoreMappings, List.filterMap_cons, List.filterMap_nil,
      Option.map_some', List.map_cons, List.map_nil, List.sum_cons, List.sum_nil]
    norm_num [scoreVote, signSpec, eps]
  · refine (hsnd _ _ _ _).trans ?_
    simp only [presentScores, scoreMappings, List.filterMap_cons, List.filterMap_nil,
      Option.map_some', List.map_cons, List.map_nil, List.sum_cons, List.sum_nil]
    norm_num [scoreVote, signSpec, eps]
  · have hfst := congrArg Prod.fst (scorePipelineRun_eq getId none none none (some (25/2)))
    rw [hfst, List.length_map]
    simp [presentScores, scoreMappings]

/-- C10: the classification vote uses the raw input value while the stored
score value is rounded to 4 decimals, so a value `v` with
`1e-5 < |v| < 5e-5` is stored as `0.0` yet contributes a nonzero vote. -/
theorem scorePipeline_vote_raw_stored_rounded :
    ∀ (getId : String → ℤ) (v : ℚ), eps < |v| → |v| < 5 * eps →
      pyRound4 v = 0 ∧ scoreVote v ≠ 0 ∧
      (scorePipelineRun getId (some v) none none none).1 =
        [{ score_name := "HSA", score_value := 0, score_id := some (getId "HSA") }] ∧
      (scorePipelineRun getId (some v) none none none).2 =
        (if 0 < v then 1 else -1) := by
  intro getId v h1 h2
  have heps : eps = 1/100000 := rfl
  have hround : pyRound4 v = 0 := by
    rcases lt_abs.mp h1 with hv | hv
    · have hub : v < 5 * eps := lt_of_abs_lt h2
      rw [heps] at hv hub
      have hfloor : ⌊v * 10000⌋ = 0 := by
        rw [Int.floor_eq_zero_iff]
        exact ⟨by nlinarith, by nlinarith⟩
      unfold pyRound4 roundHalfEven
      rw [hfloor]
      rw [if_pos (by push_cast; nlinarith : v * 10000 - ((0 : ℤ) : ℚ) < 1/2)]
      norm_num
    · have hlb : -(5 * eps) < v := neg_lt_of_abs_lt h2
      rw [heps] at hv hlb
      have hfloor : ⌊v * 10000⌋ = -1 := by
        rw [Int.floor_eq_iff]
        refine ⟨by push_cast; nlinarith, by push_cast; nlinarith⟩
      unfold pyRound4 roundHalfEven
      rw [hfloor]
      have hnlt : ¬ (v * 10000 - ((-1 : ℤ) : ℚ) < 1/2) := by push_cast; nlinarith
      have hgt : 1/2 < v * 10000 - ((-1 : ℤ) : ℚ) := by push_cast; nlinarith
      rw [if_neg hnlt, if_pos hgt]
      norm_num
  have hvote : (eps < v ∧ scoreVote v = 1) ∨ (v < -eps ∧ scoreVote v = -1) := by
    rcases lt_abs.mp h1 with hv | hv
    · left
      refine ⟨hv, ?_⟩
      have h0 : (0 : ℚ) < eps := by rw [heps]; norm_num
      unfold scoreVote
      rw [if_neg (by linarith), if_pos hv]
    · right
      have hv2 : v < -eps := by linarith
      exact ⟨hv2, by unfold scoreVote; rw [if_pos hv2]⟩
  refine ⟨hround, ?_, ?_, ?_⟩
  · rcases hvote with ⟨_, hv⟩ | ⟨_, hv⟩ <;> rw [hv] <;> decide
  · rw [scorePipelineRun_eq]
    simp [presentScores, scoreMappings, mkScore, hround]
  · rw [scorePipelineRun_eq]
    rcases hvote with ⟨hv, hvv⟩ | ⟨hv, hvv⟩
    · have h0v : 0 < v := lt_trans (by rw [heps]; norm_num) hv
      simp [presentScores, scoreMappings, hvv, signSpec, h0v]
    · have h0v : ¬ (0 < v) := by
        have hneg : v < 0 := lt_trans hv (by rw [heps]; norm_num)
        linarith
      simp [presentScores, scoreMappings, hvv, signSpec, h0v]

/-- Witness for C10 at `v = 2e-5`: the stored value rounds to `0` while the
vote is nonzero and the classification is `1`. -/
theorem scorePipeline_vote_raw_stored_rounded_witness :
    pyRound4 (1/50000 : ℚ) = 0 ∧ scoreVote (1/50000 : ℚ) ≠ 0 ∧
      (scorePipelineRun (fun _ => 7) (some (1/50000)) none none none).1 =
        [{ score_name := "HSA", score_value := 0, score_id := some 7 }] ∧
      (scorePipelineRun (fun _ => 7) (some (1/50000)) none none none).2 =
        (if 0 < (1/50000 : ℚ) then 1 else -1) :=
  scorePipeline_vote_raw_stored_rounded (fun _ => 7) (1/50000)
    (by rw [abs_of_pos (by norm_num : (0:ℚ) < 1/50000)]; norm_num [eps])
    (by rw [abs_of_pos (by norm_num : (0:ℚ) < 1/50000)]; norm_num [eps])

/-! ## `domain/models.py`: `Experiment` and `experiment_hash`

`experiment_hash` builds the payload dict
`{dc_id, cell_line_id, experiment_classification_id, experiment_source_id,
sorted((score_id, score_value) pairs)}` and returns
`sha256(json.dumps(payload, separators=(",", ":"), sort_keys=True))`.
`json.dumps` and `sha256` are deterministic functions of the payload, so the
digest is modelled as an arbitrary function `digest` of the payload tuple;
two experiments have the same hash exactly when their payloads agree.

Python's `sorted` compares `(score_id, score_value)` tuples
lexicographically (it raises `TypeError` when a `None` id meets an `int`
id; the order below totalizes that case with `None` first, which agrees
with Python on every list it can sort). -/

/-- The sort key of a `(score_id, score_value)` pair: lexicographic on
(id, value). -/
def pairKey (p : Option ℤ × ℚ) : Lex (WithBot ℤ × ℚ) :=
  toLex (p.1.elim ⊥ (fun x => (x : WithBot ℤ)), p.2)

/-- Tuple comparison used by `sorted` in `experiment_hash`. -/
def pairLe (a b : Option ℤ × ℚ) : Prop := pairKey a ≤ pairKey b

instance : DecidableRel pairLe :=
  fun a b => inferInstanceAs (Decidable (pairKey a ≤ pairKey b))

instance : IsTrans (Option ℤ × ℚ) pairLe :=
  ⟨fun _ _ _ h1 h2 => le_trans h1 h2⟩

instance : IsTotal (Option ℤ × ℚ) pairLe :=
  ⟨fun a b => le_total (pairKey a) (pairKey b)⟩

theorem pairKey_injective : Function.Injective pairKey := by
  intro a b h
  unfold pairKey at h
  have h2 := toLex.injective h
  rw [Prod.mk.injEq] at h2
  obtain ⟨hid, hval⟩ := h2
  refine Prod.ext ?_ hval
  cases ha : a.1 with
  | none =>
    cases hb : b.1 with
    | none => rfl
    | some y => rw [ha, hb] at hid; exact absurd hid (by simp)
  | some x =>
    cases hb : b.1 with
    | none => rw [ha, hb] at hid; exact absurd hid (by simp)
    | some y =>
      rw [ha, hb] at hid
      simp only [Option.elim_some, WithBot.coe_inj] at hid
      rw [hid]

instance : IsAntisymm (Option ℤ × ℚ) pairLe :=
  ⟨fun _ _ h1 h2 => pairKey_injective (le_antisymm h1 h2)⟩

/-- Python `sorted(...)` over the `(score_id, score_value)` pairs. -/
def sortScorePairs (l : List (Option ℤ × ℚ)) : List (Option ℤ × ℚ) :=
  List.insertionSort pairLe l

/-- The `Experiment` dataclass of `domain/models.py`. -/
structure Experiment where
  dc_id : ℤ
  cell_line_id : String
  experiment_classification_id : ℤ
  experiment_source_id : ℤ
  scores : List Score
  experiment_id : Option ℤ := none
deriving Repr, DecidableEq

/-- The `(score.score_id, score.score_value)` list comprehension of
`experiment_hash`. -/
def experimentScorePairs (e : Experiment) : List (Option ℤ × ℚ) :=
  e.scores.map (fun s => (s.score_id, s.score_value))

/-- The payload dict of `experiment_hash`, with the score pairs sorted. -/
def experimentHashPayload (e : Experiment) :
    ℤ × String × ℤ × ℤ × List (Option ℤ × ℚ) :=
  (e.dc_id, e.cell_line_id, e.experiment_classification_id,
   e.experiment_source_id, sortScorePairs (experimentScorePairs e))

/-- Model of `experiment_hash`: `digest` stands for
`sha256 ∘ (json.dumps with sorted keys and fixed separators)`, a
deterministic function of the payload. -/
def experimentHash (digest : ℤ × String × ℤ × ℤ × List (Option ℤ × ℚ) → String)
    (e : Experiment) : String :=
  digest (experimentHashPayload e)

theorem sortScorePairs_congr_perm {l1 l2 : List (Option ℤ × ℚ)} (h : l1.Perm l2) :
    sortScorePairs l1 = sortScorePairs l2 :=
  List.eq_of_perm_of_sorted
    ((List.perm_insertionSort pairLe l1).trans
      (h.trans (List.perm_insertionSort pairLe l2).symm))
    (List.sorted_insertionSort pairLe l1)
    (List.sorted_insertionSort pairLe l2)

/-- C3: `experiment_hash` is invariant under permutation of the score list:
two experiments agreeing on `dc_id`, `cell_line_id`, classification and
source whose score lists are permutations of each other produce identical
content hashes, because the `(score_id, score_value)` pairs are sorted
before hashing. -/
theorem experimentHash_perm_invariant :
    ∀ (e1 e2 : Experiment)
      (digest : ℤ × String × ℤ × ℤ × List (Option ℤ × ℚ) → String),
      e1.dc_id = e2.dc_id →
      e1.cell_line_id = e2.cell_line_id →
      e1.experiment_classification_id = e2.experiment_classification_id →
      e1.experiment_source_id = e2.experiment_source_id →
      e1.scores.Perm e2.scores →
      experimentHash digest e1 = experimentHash digest e2 := by
  intro e1 e2 digest h1 h2 h3 h4 hperm
  unfold experimentHash experimentHashPayload experimentScorePairs
  rw [h1, h2, h3, h4,
    sortScorePairs_congr_perm (hperm.map (fun s => (s.score_id, s.score_value)))]

/-- Witness for C3: the spec's literal example, scores
`[(id=1,val=2.0),(id=2,val=3.0)]` against the reversed insertion order. -/
theorem experimentHash_perm_invariant_witness :
    experimentHash (fun p => toString p.1)
      { dc_id := 1, cell_line_id := "CVCL_0001",
        experiment_classification_id := 2, experiment_source_id := 3,
        scores := [{ score_name := "HSA", score_value := 2, score_id := some 1 },
                   { score_name := "Bliss", score_value := 3, score_id := some 2 }] } =
    experimentHash (fun p => toString p.1)
      { dc_id := 1, cell_line_id := "CVCL_0001",
        experiment_classification_id := 2, experiment_source_id := 3,
        scores := [{ score_name := "Bliss", score_value := 3, score_id := some 2 },
                   { score_name := "HSA", score_value := 2, score_id := some 1 }] } :=
  experimentHash_perm_invariant _ _ _ rfl rfl rfl rfl (List.Perm.swap _ _ _)

/-! ## `repo/drugcomb_repo.py`: `DrugCombRepo.get_or_create_combination`

The junction table `drug_comb_drug` is a list of `(dc_id, drug_id)` rows,
the `AUTO_INCREMENT` id allocator is an explicit counter, and the
in-process `drugcomb_cache` dict is an association list.  The SQL query

`SELECT dc_id FROM drug_comb_drug GROUP BY dc_id
 HAVING COUNT(*) = n AND SUM(drug_id IN (ids)) = n`

is modelled per group of the junction table; `fetchone` picks the first
matching group. -/

/-- Python's string comparison used by `sorted`: lexicographic on the
code-point sequences. -/
def pyStrLe (a b : String) : Prop := a.data ≤ b.data

instance : DecidableRel pyStrLe :=
  fun a b => inferInstanceAs (Decidable (a.data ≤ b.data))

instance : IsTrans String pyStrLe := ⟨fun _ _ _ h1 h2 => le_trans h1 h2⟩

instance : IsTotal String pyStrLe := ⟨fun a b => le_total a.data b.data⟩

instance : IsAntisymm String pyStrLe :=
  ⟨fun _ _ h1 h2 => String.ext (le_antisymm h1 h2)⟩

/-- Python `sorted(set(drug_ids))`. -/
def sortedSet (l : List String) : List String :=
  List.insertionSort pyStrLe l.dedup

/-- The member drug ids of group `dc` of the junction table. -/
def membersOf (rows : List (ℕ × String)) (dc : ℕ) : List String :=
  (rows.filter (fun p => decide (p.1 = dc))).map Prod.snd

/-- The distinct `dc_id`s of the junction table (the `GROUP BY dc_id`). -/
def groupIds (rows : List (ℕ × String)) : List ℕ :=
  (rows.map Prod.fst).dedup

/-- The `HAVING COUNT(*) = n AND SUM(drug_id IN (...)) = n` clause for one
group. -/
def exactSetMatch (rows : List (ℕ × String)) (ids : List String) (dc : ℕ) : Bool :=
  decide ((membersOf rows dc).length = ids.length) &&
  decide (((membersOf rows dc).filter (fun d => decide (d ∈ ids))).length = ids.length)

/-- The combination lookup query, with `fetchone`. -/
def queryExactSet (rows : List (ℕ × String)) (ids : List String) : Option ℕ :=
  (groupIds rows).find? (exactSetMatch rows ids)

/-- Lookup in the in-process `drugcomb_cache`. -/
def cacheFind (cache : List (List String × ℕ)) (ids : List String) : Option ℕ :=
  (cache.find? (fun q => decide (q.1 = ids))).map Prod.snd

/-- The state touched by `DrugCombRepo.get_or_create_combination`:
junction-table rows, the auto-increment counter, and the cache. -/
structure CombState where
  rows : List (ℕ × String)
  nextId : ℕ
  cache : List (List String × ℕ)
deriving Repr, DecidableEq

/-- The `ValueError` message raised for fewer than two unique drug ids. -/
def combinationError : String :=
  "At least two unique drug IDs are required to form a combination."

/-- Model of `DrugCombRepo.get_or_create_combination(drug_ids)`.  A `.error` models
the raised `ValueError`, which the `sql_op` wrapper re-raises to the caller
after rolling back, leaving the state unchanged. -/
def getOrCreateCombination (st : CombState) (drug_ids : List String) :
    Except String (ℕ × CombState) :=
  if (sortedSet drug_ids).length ≤ 1 then .error combinationError
  else
    match cacheFind st.cache (sortedSet drug_ids) with
    | some dcId => .ok (dcId, st)
    | none =>
      match queryExactSet st.rows (sortedSet drug_ids) with
      | some dcId => .ok (dcId, { st with cache := (sortedSet drug_ids, dcId) :: st.cache })
      | none =>
        .ok (st.nextId,
          { rows := st.rows ++ (sortedSet drug_ids).map (fun d => (st.nextId, d)),
            nextId := st.nextId + 1,
            cache := (sortedSet drug_ids, st.nextId) :: st.cache })

/-- Representation invariant of the repository state: all allocated ids are
below the counter, the cache agrees with the junction table, and every
stored group is a sorted duplicate-free list of at least two members. -/
structure CombInv (st : CombState) : Prop where
  rows_lt : ∀ p ∈ st.rows, p.1 < st.nextId
  cache_lt : ∀ q ∈ st.cache, q.2 < st.nextId
  cache_consistent : ∀ q ∈ st.cache, membersOf st.rows q.2 = q.1
  groups_canonical : ∀ dc ∈ groupIds st.rows,
    membersOf st.rows dc = sortedSet (membersOf st.rows dc) ∧
    2 ≤ (membersOf st.rows dc).length

theorem sortedSet_sorted (l : List String) : (sortedSet l).Sorted pyStrLe :=
  List.sorted_insertionSort _ _

theorem sortedSet_nodup (l : List String) : (sortedSet l).Nodup :=
  (List.perm_insertionSort _ _).nodup_iff.mpr (List.nodup_dedup l)

theorem mem_sortedSet {x : String} {l : List String} : x ∈ sortedSet l ↔ x ∈ l := by
  unfold sortedSet
  rw [List.mem_insertionSort, List.mem_dedup]

theorem sortedSet_eq_self {l : List String} (hs : l.Sorted pyStrLe) (hn : l.Nodup) :
    sortedSet l = l := by
  unfold sortedSet
  rw [List.dedup_eq_self.mpr hn]
  exact List.Sorted.insertionSort_eq hs

theorem sortedSet_idem (l : List String) : sortedSet (sortedSet l) = sortedSet l :=
  sortedSet_eq_self (sortedSet_sorted l) (sortedSet_nodup l)

theorem sortedSet_eq_of_toFinset {l1 l2 : List String} (h : l1.toFinset = l2.toFinset) :
    sortedSet l1 = sortedSet l2 := by
  have hperm : l1.dedup.Perm l2.dedup := by
    refine (List.perm_ext_iff_of_nodup (List.nodup_dedup l1) (List.nodup_dedup l2)).mpr ?_
    intro a
    rw [List.mem_dedup, List.mem_dedup, ← List.mem_toFinset, ← List.mem_toFinset, h]
  exact List.eq_of_perm_of_sorted
    ((List.perm_insertionSort _ _).trans (hperm.trans (List.perm_insertionSort _ _).symm))
    (sortedSet_sorted l1) (sortedSet_sorted l2)

theorem toFinset_eq_of_sortedSet {l1 l2 : List String} (h : sortedSet l1 = sortedSet l2) :
    l1.toFinset = l2.toFinset := by
  ext x
  rw [List.mem_toFinset, List.mem_toFinset]
  constructor
  · intro hx
    exact mem_sortedSet.mp (h ▸ mem_sortedSet.mpr hx)
  · intro hx
    exact mem_sortedSet.mp (h.symm ▸ mem_sortedSet.mpr hx)

theorem membersOf_append (rows1 rows2 : List (ℕ × String)) (dc : ℕ) :
    membersOf (rows1 ++ rows2) dc = membersOf rows1 dc ++ membersOf rows2 dc := by
  unfold membersOf
  rw [List.filter_append, List.map_append]

theorem membersOf_block (ids : List String) (n dc : ℕ) :
    membersOf (ids.map (fun d => (n, d))) dc = if n = dc then ids else [] := by
  induction ids with
  | nil => by_cases h : n = dc <;> simp [membersOf, h]
  | cons d ids ih =>
    by_cases h : n = dc
    · simp only [membersOf, List.map_cons, List.filter_cons] at ih ⊢
      simp [h] at ih ⊢
      exact ih
    · simp only [membersOf, List.map_cons, List.filter_cons] at ih ⊢
      simp [h] at ih ⊢

theorem membersOf_eq_nil_of_lt {rows : List (ℕ × String)} {k : ℕ}
    (h : ∀ p ∈ rows, p.1 < k) : membersOf rows k = [] := by
  unfold membersOf
  have hf : rows.filter (fun p => decide (p.1 = k)) = [] := by
    rw [List.filter_eq_nil_iff]
    intro p hp
    simp only [decide_eq_true_eq]
    exact Nat.ne_of_lt (h p hp)
  rw [hf, List.map_nil]

theorem mem_groupIds {rows : List (ℕ × String)} {dc : ℕ} :
    dc ∈ groupIds rows ↔ ∃ p ∈ rows, p.1 = dc := by
  unfold groupIds
  rw [List.mem_dedup, List.mem_map]

theorem cacheFind_mem {cache : List (List String × ℕ)} {ids : List String} {d : ℕ}
    (h : cacheFind cache ids = some d) :
    ∃ q ∈ cache, q.1 = ids ∧ q.2 = d := by
  unfold cacheFind at h
  cases hf : cache.find? (fun q => decide (q.1 = ids)) with
  | none => rw [hf] at h; exact absurd h (by simp)
  | some q =>
    rw [hf] at h
    simp only [Option.map_some', Option.some.injEq] at h
    refine ⟨q, List.mem_of_find?_eq_some hf, ?_, h⟩
    have := List.find?_some hf
    simpa using this

theorem exactSetMatch_members {rows : List (ℕ × String)} {ids : List String} {dc : ℕ}
    (hg : ∀ g ∈ groupIds rows,
      membersOf rows g = sortedSet (membersOf rows g) ∧ 2 ≤ (membersOf rows g).length)
    (hids : ids = sortedSet ids)
    (hdc : dc ∈ groupIds rows)
    (hm : exactSetMatch rows ids dc = true) :
    membersOf rows dc = ids := by
  unfold exactSetMatch at hm
  rw [Bool.and_eq_true, decide_eq_true_eq, decide_eq_true_eq] at hm
  obtain ⟨hlen, hfil⟩ := hm
  have hcan := (hg dc hdc).1
  have hms : (membersOf rows dc).Sorted pyStrLe := by
    rw [hcan]; exact sortedSet_sorted _
  have hmn : (membersOf rows dc).Nodup := by
    rw [hcan]; exact sortedSet_nodup _
  have hsub : membersOf rows dc ⊆ ids := by
    have hsubl := List.filter_sublist (p := fun d => decide (d ∈ ids)) (membersOf rows dc)
    have heq : (membersOf rows dc).filter (fun d => decide (d ∈ ids)) = membersOf rows dc :=
      hsubl.eq_of_length (by rw [hfil, hlen])
    intro x hx
    have hx2 : x ∈ (membersOf rows dc).filter (fun d => decide (d ∈ ids)) := by
      rw [heq]; exact hx
    simpa using (List.mem_filter.mp hx2).2
  have hperm : (membersOf rows dc).Perm ids :=
    (List.subperm_of_subset hmn hsub).perm_of_length_le (le_of_eq hlen.symm)
  exact List.eq_of_perm_of_sorted hperm hms (by rw [hids]; exact sortedSet_sorted ids)

/-- One successful call of `get_or_create_combination` preserves the
repository invariant, leaves the canonical input set cached with the
returned id, and the returned id's junction-table group (after the call)
is exactly the canonical input set. -/
theorem getOrCreate_preserves {st : CombState} {l : List String} {dcId : ℕ}
    {st' : CombState} (hInv : CombInv st)
    (h : getOrCreateCombination st l = .ok (dcId, st')) :
    CombInv st' ∧
    cacheFind st'.cache (sortedSet l) = some dcId ∧
    membersOf st'.rows dcId = sortedSet l ∧
    2 ≤ (sortedSet l).length := by
  unfold getOrCreateCombination at h
  split at h
  · simp at h
  · rename_i hlen
    have hlen2 : 2 ≤ (sortedSet l).length := by omega
    split at h
    · rename_i d hc
      simp only [Except.ok.injEq, Prod.mk.injEq] at h
      obtain ⟨hd, hst⟩ := h
      subst hd
      subst hst
      obtain ⟨q, hqmem, hq1, hq2⟩ := cacheFind_mem hc
      refine ⟨hInv, hc, ?_, hlen2⟩
      have hcons := hInv.cache_consistent q hqmem
      rw [hq2] at hcons
      rw [hcons, hq1]
    · rename_i hcnone
      split at h
      · rename_i d hq
        simp only [Except.ok.injEq, Prod.mk.injEq] at h
        obtain ⟨hd, hst⟩ := h
        subst hd
        unfold queryExactSet at hq
        have hdc_mem : d ∈ groupIds st.rows := List.mem_of_find?_eq_some hq
        have hmatch : exactSetMatch st.rows (sortedSet l) d = true := List.find?_some hq
        have hmem : membersOf st.rows d = sortedSet l :=
          exactSetMatch_members hInv.groups_canonical (sortedSet_idem l).symm hdc_mem hmatch
        have hdlt : d < st.nextId := by
          obtain ⟨p, hp, hpd⟩ := mem_groupIds.mp hdc_mem
          exact hpd ▸ hInv.rows_lt p hp
        subst hst
        refine ⟨⟨hInv.rows_lt, ?_, ?_, hInv.groups_canonical⟩, ?_, hmem, hlen2⟩
        · intro q hqm
          rcases List.mem_cons.mp hqm with hq1 | hq1
          · rw [hq1]; exact hdlt
          · exact hInv.cache_lt q hq1
        · intro q hqm
          rcases List.mem_cons.mp hqm with hq1 | hq1
          · rw [hq1]; exact hmem
          · exact hInv.cache_consistent q hq1
        · unfold cacheFind
          rw [List.find?_cons_of_pos _ (by simp)]
          rfl
      · rename_i hqnone
        simp only [Except.ok.injEq, Prod.mk.injEq] at h
        obtain ⟨hd, hst⟩ := h
        subst hd
        subst hst
        have hnewmem : membersOf
            (st.rows ++ (sortedSet l).map (fun d => (st.nextId, d))) st.nextId
            = sortedSet l := by
          rw [membersOf_append, membersOf_block,
            membersOf_eq_nil_of_lt hInv.rows_lt, if_pos rfl, List.nil_append]
        refine ⟨⟨?_, ?_, ?_, ?_⟩, ?_, hnewmem, hlen2⟩
        · intro p hp
          rcases List.mem_append.mp hp with hp1 | hp1
          · exact Nat.lt_succ_of_lt (hInv.rows_lt p hp1)
          · obtain ⟨d', _, hpd⟩ := List.mem_map.mp hp1
            rw [← hpd]
            exact Nat.lt_succ_self _
        · intro q hqm
          rcases List.mem_cons.mp hqm with hq1 | hq1
          · rw [hq1]; exact Nat.lt_succ_self _
          · exact Nat.lt_succ_of_lt (hInv.cache_lt q hq1)
        · intro q hqm
          rcases List.mem_cons.mp hqm with hq1 | hq1
          · rw [hq1]
            exact hnewmem
          · have hql := hInv.cache_lt q hq1
            rw [membersOf_append, membersOf_block, if_neg (Nat.ne_of_gt hql),
              List.append_nil]
            exact hInv.cache_consistent q hq1
        · intro g hg
          obtain ⟨p, hp, hpg⟩ := mem_groupIds.mp hg
          rcases List.mem_append.mp hp with hp1 | hp1
          · have hglt : g < st.nextId := hpg ▸ hInv.rows_lt p hp1
            have hmm : membersOf
                (st.rows ++ (sortedSet l).map (fun d => (st.nextId, d))) g
                = membersOf st.rows g := by
              rw [membersOf_append, membersOf_block, if_neg (Nat.ne_of_gt hglt),
                List.append_nil]
            rw [hmm]
            exact hInv.groups_canonical g (mem_groupIds.mpr ⟨p, hp1, hpg⟩)
          · obtain ⟨d', _, hpd⟩ := List.mem_map.mp hp1
            have hgnew : g = st.nextId := by rw [← hpg, ← hpd]
            subst hgnew
            rw [hnewmem]
            exact ⟨(sortedSet_idem l).symm, hlen2⟩
        · unfold cacheFind
          rw [List.find?_cons_of_pos _ (by simp)]
          rfl

/-- C2: two calls of `get_or_create_combination` on inputs denoting the
same set of at least two unique drug ids return the same combination id;
inputs denoting different sets return different ids; and the exact-set SQL
lookup matches only a group whose member set equals the input set. -/
theorem getOrCreateCombination_set_identity :
    ∀ (st : CombState) (l1 l2 : List String) (r1 r2 : ℕ × CombState),
      CombInv st →
      getOrCreateCombination st l1 = .ok r1 →
      getOrCreateCombination r1.2 l2 = .ok r2 →
      (l1.toFinset = l2.toFinset → r1.1 = r2.1) ∧
      (l1.toFinset ≠ l2.toFinset → r1.1 ≠ r2.1) ∧
      (∀ dc, queryExactSet st.rows (sortedSet l1) = some dc →
        membersOf st.rows dc = sortedSet l1) := by
  intro st l1 l2 r1 r2 hInv h1 h2
  obtain ⟨hInv1, hfind1, hmem1, hlen1⟩ := getOrCreate_preserves hInv h1
  refine ⟨?_, ?_, ?_⟩
  · intro hset
    have hs : sortedSet l1 = sortedSet l2 := sortedSet_eq_of_toFinset hset
    unfold getOrCreateCombination at h2
    rw [← hs, if_neg (by omega), hfind1] at h2
    simp only [Except.ok.injEq] at h2
    rw [← h2]
  · intro hset heq
    have hs : sortedSet l1 ≠ sortedSet l2 := fun hh => hset (toFinset_eq_of_sortedSet hh)
    unfold getOrCreateCombination at h2
    split at h2
    · simp at h2
    · split at h2
      · rename_i d hc
        simp only [Except.ok.injEq] at h2
        obtain ⟨q2, hq2mem, hq21, hq22⟩ := cacheFind_mem hc
        have hc2 : membersOf r1.2.rows d = sortedSet l2 := by
          have hcons := hInv1.cache_consistent q2 hq2mem
          rw [hq22] at hcons
          rw [hcons, hq21]
        apply hs
        rw [← hmem1, ← hc2, heq, ← h2]
      · split at h2
        · rename_i d hq
          simp only [Except.ok.injEq] at h2
          unfold queryExactSet at hq
          have hc2 : membersOf r1.2.rows d = sortedSet l2 :=
            exactSetMatch_members hInv1.groups_canonical (sortedSet_idem l2).symm
              (List.mem_of_find?_eq_some hq) (List.find?_some hq)
          apply hs
          rw [← hmem1, ← hc2, heq, ← h2]
        · simp only [Except.ok.injEq] at h2
          obtain ⟨q1, hq1mem, _, hq12⟩ := cacheFind_mem hfind1
          have hlt : r1.1 < r1.2.nextId := by
            rw [← hq12]
            exact hInv1.cache_lt q1 hq1mem
          rw [← h2] at heq
          simp only at heq
          omega
  · intro dc hq
    unfold queryExactSet at hq
    exact exactSetMatch_members hInv.groups_canonical (sortedSet_idem l1).symm
      (List.mem_of_find?_eq_some hq) (List.find?_some hq)

/-- Witness for C2: on an empty repository, `[B, A]` creates combination
`0`; the follow-up call with `[A, B]` returns the same id `0`. -/
theorem getOrCreateCombination_set_identity_witness :
    ((["B", "A"] : List String).toFinset = (["A", "B"] : List String).toFinset →
      (0 : ℕ) = 0) ∧
    ((["B", "A"] : List String).toFinset ≠ (["A", "B"] : List String).toFinset →
      (0 : ℕ) ≠ 0) ∧
    (∀ dc, queryExactSet (CombState.mk [] 0 []).rows (sortedSet ["B", "A"]) = some dc →
      membersOf (CombState.mk [] 0 []).rows dc = sortedSet ["B", "A"]) :=
  getOrCreateCombination_set_identity ⟨[], 0, []⟩ ["B", "A"] ["A", "B"]
    (0, ⟨[(0, "A"), (0, "B")], 1, [(["A", "B"], 0)]⟩)
    (0, ⟨[(0, "A"), (0, "B")], 1, [(["A", "B"], 0)]⟩)
    ⟨(by intro p hp; cases hp), (by intro q hq; cases hq),
      (by intro q hq; cases hq), (by intro dc hdc; simp [groupIds] at hdc)⟩
    (by rfl) (by rfl)

/-- C9: with fewer than two unique drug ids after deduplication, the
lookup raises `ValueError` without reading or writing any combination
state (the result is the same error for every repository state), and the
error propagates: `sql_op` rolls back and re-raises it to the caller. -/
theorem getOrCreateCombination_rejects_few_ids :
    ∀ (st : CombState) (drug_ids : List String),
      drug_ids.dedup.length ≤ 1 →
      getOrCreateCombination st drug_ids = .error combinationError := by
  intro st l h
  have hlen : (sortedSet l).length = l.dedup.length :=
    (List.perm_insertionSort _ _).length_eq
  unfold getOrCreateCombination
  rw [if_pos (by omega)]

/-- Witness for C9 at a list of repeated copies of one id. -/
theorem getOrCreateCombination_rejects_few_ids_witness :
    (["A", "A"] : List String).dedup.length ≤ 1 ∧
    getOrCreateCombination ⟨[], 0, []⟩ ["A", "A"] = .error combinationError :=
  ⟨by decide, getOrCreateCombination_rejects_few_ids ⟨[], 0, []⟩ ["A", "A"] (by decide)⟩

/-! ## `pipeline/DCDB/drug_pipeline.py`: staged drug resolution

A staging-table row of `staging_drugs`, the local `drugs` mirror table,
and `DrugPipeline.stage_1` with its private `__get_pubchem_id` helper.
The DrugCombDB API is an oracle `String → Except String (Option Drug)`;
the second component of each resolution result counts how many network
calls were made (`0` or `1`).

`stage_1` loops `SELECT ... WHERE status=0 LIMIT 1000` batches until no
pending row remains; every update moves the selected row's status off `0`,
so the loop processes each pending row exactly once and the net effect is
a single pass over the rows at status `0`, which is how it is modelled. -/

/-- The `Drug` dataclass of `domain/models.py`. -/
structure Drug where
  drug_id : String
  drug_name : String
  source_id : ℤ
  molecular_type : Option String := none
  chemical_structure : Option String := none
  inchi_key : Option String := none
deriving Repr, DecidableEq

/-- A row of the local `drugs` mirror table, as selected by
`SELECT cIds, drugNameOfficial, smilesString FROM drugs
 WHERE drugName = ? OR drugNameOfficial = ?`. -/
structure LocalDrugRow where
  drugName : String
  drugNameOfficial : Option String := none
  cIds : String
  smilesString : Option String := none
deriving Repr, DecidableEq

/-- A row of the `staging_drugs` staging table. -/
structure DrugRow where
  drug_name : String
  pubchem_id : Option String := none
  chembl_id : Option String := none
  molecular_type : Option String := none
  chemical_structure : Option String := none
  inchi_key : Option String := none
  status : ℤ := 0
  error_code : Option ℤ := none
deriving Repr, DecidableEq

def NOT_FOUND_IN_DCDB_CODE : ℤ := 1
def NOT_FOUND_IN_UNICHEM_CODE : ℤ := 2
def NOT_FOUND_IN_CHEMBL_CODE : ℤ := 3

/-- The local-mirror lookup of `__get_pubchem_id`. -/
def localDrugFind (localDrugs : List LocalDrugRow) (name : String) :
    Option LocalDrugRow :=
  localDrugs.find?
    (fun row => decide (row.drugName = name) || decide (row.drugNameOfficial = some name))

/-- Digit-sequence parse of Python's `int(...)` (structural recursion on
the character list). -/
def parseNatAux : List Char → ℕ → Option ℕ
  | [], acc => some acc
  | c :: cs, acc => if c.isDigit then parseNatAux cs (acc * 10 + (c.toNat - 48)) else none

/-- Model of `int(s)` on a decimal string: `none` models the raised `ValueError`
for an empty or non-numeric string. -/
def parseNat? (l : List Char) : Option ℕ :=
  match l with
  | [] => none
  | _ => parseNatAux l 0

/-- Model of `str(int(result[0][4:]))`: strip the `CIDs` marker and parse; a
malformed value raises `ValueError` (modelled as `.error`). -/
def cidsToPubchemId (cIds : String) : Except String String :=
  match parseNat? (cIds.drop 4).data with
  | some n => .ok (toString n)
  | none => .error "invalid literal for int() with base 10"

/-- Python `name = result[1] if result[1] else drug_name` (truthiness:
`None` and the empty string both fall back to the input name). -/
def officialOrInput (official : Option String) (drug_name : String) : String :=
  match official with
  | some s => if s = "" then drug_name else s
  | none => drug_name

/-- Model of `DrugPipeline.__get_pubchem_id(drug_name)`: local mirror first; on a
miss, return `None` in local mode, otherwise fall back to the DrugCombDB
API.  The second component counts DrugCombDB API calls. -/
def getPubchemId (localDrugs : List LocalDrugRow) (isLocal : Bool)
    (dcdbApi : String → Except String (Option Drug)) (pubchemSourceId : ℤ)
    (drug_name : String) : Except String (Option Drug) × ℕ :=
  match localDrugFind localDrugs drug_name with
  | some row =>
    (match cidsToPubchemId row.cIds with
     | .error e => (.error e, 0)
     | .ok pid =>
       (.ok (some { drug_id := pid,
                    drug_name := officialOrInput row.drugNameOfficial drug_name,
                    source_id := pubchemSourceId,
                    chemical_structure := row.smilesString }), 0))
  | none => if isLocal then (.ok none, 0) else (dcdbApi drug_name, 1)

/-- The failed-transition update of `stage_1`:
`(None, None, -1, NOT_FOUND_IN_DCDB_CODE)`. -/
def failDrugRow (r : DrugRow) : DrugRow :=
  { r with
    pubchem_id := none, chemical_structure := none, status := -1,
    error_code := some NOT_FOUND_IN_DCDB_CODE }

/-- The success update of `stage_1`:
`(drug_id, chemical_structure, 1, None)`. -/
def successDrugRow (r : DrugRow) (d : Drug) : DrugRow :=
  { r with
    pubchem_id := some d.drug_id, chemical_structure := d.chemical_structure,
    status := 1, error_code := none }

/-- The per-row body of `stage_1`'s loop: `try/except` around
`__get_pubchem_id`, with the `if pubchem_drug and pubchem_drug.drug_id`
truthiness check (a `None` result or empty id fails the row). -/
def resolveDrugRow (localDrugs : List LocalDrugRow) (isLocal : Bool)
    (dcdbApi : String → Except String (Option Drug)) (pubchemSourceId : ℤ)
    (r : DrugRow) : DrugRow × ℕ :=
  match getPubchemId localDrugs isLocal dcdbApi pubchemSourceId r.drug_name with
  | (Except.ok (some d), n) =>
    (if d.drug_id ≠ "" then successDrugRow r d else failDrugRow r, n)
  | (Except.ok none, n) => (failDrugRow r, n)
  | (Except.error _, n) => (failDrugRow r, n)

/-- Model of `DrugPipeline.stage_1`: update exactly the rows at status `0`. -/
def drugStage1 (localDrugs : List LocalDrugRow) (isLocal : Bool)
    (dcdbApi : String → Except String (Option Drug)) (pubchemSourceId : ℤ)
    (table : List DrugRow) : List DrugRow :=
  table.map (fun r =>
    if r.status = 0 then (resolveDrugRow localDrugs isLocal dcdbApi pubchemSourceId r).1
    else r)

/-- Number of DrugCombDB API calls made by one run of `stage_1`. -/
def drugStage1Calls (localDrugs : List LocalDrugRow) (isLocal : Bool)
    (dcdbApi : String → Except String (Option Drug)) (pubchemSourceId : ℤ)
    (table : List DrugRow) : ℕ :=
  ((table.filter (fun r => decide (r.status = 0))).map
    (fun r => (resolveDrugRow localDrugs isLocal dcdbApi pubchemSourceId r).2)).sum

/-! ## `pipeline/DCDB/cell_line_pipeline.py`: staged cell-line resolution

`CellLinePipeline.stage_1` with its two resolution paths (COSMIC fast
path, DrugCombDB fallback) and local mode.  The local `cell_lines` mirror
maps a cell name to an optional numeric COSMIC id; `str(int(cosmicId))`
raises a `TypeError` when the stored id is `NULL`.  The count in each
result is the number of DrugCombDB fallback calls. -/

/-- A row of the `staging_cell_lines` staging table. -/
structure CellRow where
  original_name : String
  cosmic_id : Option String := none
  cellosaurus_accession : Option String := none
  tissue : Option String := none
  ncit_accession : Option String := none
  umls_cui : Option String := none
  disease_name : Option String := none
  status : ℤ := 0
  error_msg : Option String := none
deriving Repr, DecidableEq

def intNoneError : String :=
  "int() argument must be a string, a bytes-like object or a real number, not NoneType"

/-- The query `SELECT cosmicId FROM cell_lines WHERE cellName = ?` on the local
mirror: pairs of `(cellName, cosmicId)`. -/
def localCellFind (lcl : List (String × Option ℤ)) (name : String) :
    Option (String × Option ℤ) :=
  lcl.find? (fun p => decide (p.1 = name))

/-- Python truthiness of an optional string (`None` and `""` are falsy). -/
def truthyStr : Option String → Bool
  | none => false
  | some s => decide (s ≠ "")

/-- The `except Exception` update of `stage_1`:
`(None, None, None, None, -1, str(e))`. -/
def failCellRow (r : CellRow) (e : String) : CellRow :=
  { r with
    cosmic_id := none, cellosaurus_accession := none, tissue := none,
    ncit_accession := none, status := -1, error_msg := some e }

/-- Fast-path success: jump straight to status `2` with the NCIt code. -/
def fastCellRow (r : CellRow) (cosmicId clId tissue ncit : Option String) : CellRow :=
  { r with
    cosmic_id := cosmicId, cellosaurus_accession := clId, tissue := tissue,
    ncit_accession := ncit, status := 2, error_msg := none }

/-- Fallback-path success: status `1`, no NCIt code yet. -/
def fallbackCellRow (r : CellRow) (cosmicId clId tissue : Option String) : CellRow :=
  { r with
    cosmic_id := cosmicId, cellosaurus_accession := clId, tissue := tissue,
    ncit_accession := none, status := 1, error_msg := none }

/-- Local-mode failure: skip the DrugCombDB fallback entirely. -/
def localModeCellRow (r : CellRow) (cosmicId : Option String) : CellRow :=
  { r with
    cosmic_id := cosmicId, cellosaurus_accession := none, tissue := none,
    ncit_accession := none, status := -1, error_msg := some "Not found (local mode)" }

/-- Fallback miss: `(cosmic_id, None, None, None, -1, "Not found")`. -/
def notFoundCellRow (r : CellRow) (cosmicId : Option String) : CellRow :=
  { r with
    cosmic_id := cosmicId, cellosaurus_accession := none, tissue := none,
    ncit_accession := none, status := -1, error_msg := some "Not found" }

/-- The fallback branch of `stage_1`: in local mode, mark not-found
without any network call; otherwise call the DrugCombDB cell-line
endpoint (counted). -/
def cellFallback (isLocal : Bool)
    (dcdbApi : String → Except String (Option String × Option String))
    (r : CellRow) (cosmicId : Option String) : CellRow × ℕ :=
  if isLocal then (localModeCellRow r cosmicId, 0)
  else
    match dcdbApi r.original_name with
    | .error e => (failCellRow r e, 1)
    | .ok (clId, tissue) =>
      if truthyStr clId then (fallbackCellRow r cosmicId clId tissue, 1)
      else (notFoundCellRow r cosmicId, 1)

/-- The per-row body of `CellLinePipeline.stage_1`'s loop. -/
def resolveCellRow (lcl : List (String × Option ℤ)) (isLocal : Bool)
    (cosmicApi : String → Except String (Option String × Option String × Option String))
    (dcdbApi : String → Except String (Option String × Option String))
    (r : CellRow) : CellRow × ℕ :=
  match localCellFind lcl r.original_name with
  | some (_, none) => (failCellRow r intNoneError, 0)
  | some (_, some cid) =>
    (match cosmicApi (toString cid) with
     | .error e => (failCellRow r e, 0)
     | .ok (clId, tissue, ncit) =>
       if truthyStr clId then (fastCellRow r (some (toString cid)) clId tissue ncit, 0)
       else cellFallback isLocal dcdbApi r (some (toString cid)))
  | none => cellFallback isLocal dcdbApi r none

/-- Model of `CellLinePipeline.stage_1`: update exactly the rows at status `0`. -/
def cellStage1 (lcl : List (String × Option ℤ)) (isLocal : Bool)
    (cosmicApi : String → Except String (Option String × Option String × Option String))
    (dcdbApi : String → Except String (Option String × Option String))
    (table : List CellRow) : List CellRow :=
  table.map (fun r =>
    if r.status = 0 then (resolveCellRow lcl isLocal cosmicApi dcdbApi r).1
    else r)

/-- Number of DrugCombDB fallback calls made by one run of the cell-line
`stage_1`. -/
def cellStage1Calls (lcl : List (String × Option ℤ)) (isLocal : Bool)
    (cosmicApi : String → Except String (Option String × Option String × Option String))
    (dcdbApi : String → Except String (Option String × Option String))
    (table : List CellRow) : ℕ :=
  ((table.filter (fun r => decide (r.status = 0))).map
    (fun r => (resolveCellRow lcl isLocal cosmicApi dcdbApi r).2)).sum

theorem resolveDrugRow_status (localDrugs : List LocalDrugRow) (isLocal : Bool)
    (dcdbApi : String → Except String (Option Drug)) (sid : ℤ) (r : DrugRow) :
    (resolveDrugRow localDrugs isLocal dcdbApi sid r).1.status = 1 ∨
    (resolveDrugRow localDrugs isLocal dcdbApi sid r).1.status = -1 := by
  unfold resolveDrugRow
  rcases hg : getPubchemId localDrugs isLocal dcdbApi sid r.drug_name with ⟨res, n⟩
  cases res with
  | error e => simp [failDrugRow]
  | ok od =>
    cases od with
    | none => simp [failDrugRow]
    | some d =>
      by_cases hid : d.drug_id ≠ ""
      · simp [hid, successDrugRow]
      · simp [hid, failDrugRow]

theorem cellFallback_status (isLocal : Bool)
    (dcdbApi : String → Except String (Option String × Option String))
    (r : CellRow) (cid : Option String) :
    (cellFallback isLocal dcdbApi r cid).1.status = 1 ∨
    (cellFallback isLocal dcdbApi r cid).1.status = -1 := by
  unfold cellFallback
  by_cases hl : isLocal
  · simp [hl, localModeCellRow]
  · cases hd : dcdbApi r.original_name with
    | error e => simp [hl, hd, failCellRow]
    | ok pr =>
      rcases pr with ⟨clId, tissue⟩
      by_cases ht : truthyStr clId
      · simp [hl, hd, ht, fallbackCellRow]
      · simp [hl, hd, ht, notFoundCellRow]

theorem resolveCellRow_status (lcl : List (String × Option ℤ)) (isLocal : Bool)
    (cosmicApi : String → Except String (Option String × Option String × Option String))
    (dcdbApi : String → Except String (Option String × Option String)) (r : CellRow) :
    (resolveCellRow lcl isLocal cosmicApi dcdbApi r).1.status = 1 ∨
    (resolveCellRow lcl isLocal cosmicApi dcdbApi r).1.status = 2 ∨
    (resolveCellRow lcl isLocal cosmicApi dcdbApi r).1.status = -1 := by
  unfold resolveCellRow
  cases hloc : localCellFind lcl r.original_name with
  | none =>
    rcases cellFallback_status isLocal dcdbApi r none with h | h
    · exact Or.inl h
    · exact Or.inr (Or.inr h)
  | some p =>
    rcases p with ⟨nm, cid⟩
    cases cid with
    | none => simp [failCellRow]
    | some n =>
      cases hc : cosmicApi (toString n) with
      | error e => simp [hc, failCellRow]
      | ok tr =>
        rcases tr with ⟨clId, tissue, ncit⟩
        by_cases ht : truthyStr clId
        · simp [hc, ht, fastCellRow]
        · simp only [hc, ht]
          rcases cellFallback_status isLocal dcdbApi r (some (toString n)) with h | h
          · exact Or.inl (by simpa [ht] using h)
          · exact Or.inr (Or.inr (by simpa [ht] using h))

theorem forall2_map_self {α : Type} (P : α → α → Prop) (f : α → α) (l : List α)
    (h : ∀ a ∈ l, P a (f a)) : List.Forall₂ P l (l.map f) := by
  induction l with
  | nil => exact List.Forall₂.nil
  | cons a l ih =>
    exact List.Forall₂.cons (h a (List.mem_cons_self a l))
      (ih fun a ha => h a (List.mem_cons_of_mem _ ha))

theorem map_id_of_fixed {α : Type} (f : α → α) (l : List α)
    (h : ∀ a ∈ l, f a = a) : l.map f = l := by
  induction l with
  | nil => rfl
  | cons a l ih =>
    rw [List.map_cons, h a (List.mem_cons_self a l),
      ih fun a ha => h a (List.mem_cons_of_mem _ ha)]

/-- C4: one run of `stage_1` (drug and cell-line pipelines) touches only
rows whose status is exactly the trigger status `0` (a row past the stage
is returned unchanged), moves each selected row to a strictly higher stage
or to the terminal failure `-1` — never back to a lower non-negative
value — and re-running the stage when no row is at the trigger status
changes nothing. -/
theorem staging_stage1_monotone_strict_trigger :
    ∀ (localDrugs : List LocalDrugRow) (isLocalD : Bool)
      (dcdbDrugApi : String → Except String (Option Drug)) (sid : ℤ)
      (dtable : List DrugRow)
      (lcl : List (String × Option ℤ)) (isLocalC : Bool)
      (cosmicApi : String → Except String (Option String × Option String × Option String))
      (dcdbCellApi : String → Except String (Option String × Option String))
      (ctable : List CellRow),
      List.Forall₂ (fun r rp : DrugRow =>
          (r.status ≠ 0 → rp = r) ∧
          (r.status = 0 → rp.status = 1 ∨ rp.status = -1) ∧
          (rp.status = r.status ∨ r.status < rp.status ∨ rp.status = -1))
        dtable (drugStage1 localDrugs isLocalD dcdbDrugApi sid dtable) ∧
      ((∀ r ∈ dtable, r.status ≠ 0) →
        drugStage1 localDrugs isLocalD dcdbDrugApi sid dtable = dtable) ∧
      List.Forall₂ (fun r rp : CellRow =>
          (r.status ≠ 0 → rp = r) ∧
          (r.status = 0 → rp.status = 1 ∨ rp.status = 2 ∨ rp.status = -1) ∧
          (rp.status = r.status ∨ r.status < rp.status ∨ rp.status = -1))
        ctable (cellStage1 lcl isLocalC cosmicApi dcdbCellApi ctable) ∧
      ((∀ r ∈ ctable, r.status ≠ 0) →
        cellStage1 lcl isLocalC cosmicApi dcdbCellApi ctable = ctable) := by
  intro localDrugs isLocalD dcdbDrugApi sid dtable lcl isLocalC cosmicApi dcdbCellApi ctable
  refine ⟨?_, ?_, ?_, ?_⟩
  · apply forall2_map_self
    intro r _
    refine ⟨fun h => if_neg h, fun h => ?_, ?_⟩
    · rw [if_pos h]
      exact resolveDrugRow_status localDrugs isLocalD dcdbDrugApi sid r
    · by_cases h : r.status = 0
      · rw [if_pos h]
        rcases resolveDrugRow_status localDrugs isLocalD dcdbDrugApi sid r with h1 | h1
        · exact Or.inr (Or.inl (by omega))
        · exact Or.inr (Or.inr h1)
      · rw [if_neg h]
        exact Or.inl rfl
  · intro hall
    exact map_id_of_fixed _ _ fun r hr => if_neg (hall r hr)
  · apply forall2_map_self
    intro r _
    refine ⟨fun h => if_neg h, fun h => ?_, ?_⟩
    · rw [if_pos h]
      exact resolveCellRow_status lcl isLocalC cosmicApi dcdbCellApi r
    · by_cases h : r.status = 0
      · rw [if_pos h]
        rcases resolveCellRow_status lcl isLocalC cosmicApi dcdbCellApi r with h1 | h1 | h1
        · exact Or.inr (Or.inl (by omega))
        · exact Or.inr (Or.inl (by omega))
        · exact Or.inr (Or.inr h1)
      · rw [if_neg h]
        exact Or.inl rfl
  · intro hall
    exact map_id_of_fixed _ _ fun r hr => if_neg (hall r hr)

/-- Witness for C4: re-running `stage_1` on tables whose rows are already
past the stage touches zero rows, in both pipelines. -/
theorem staging_stage1_monotone_strict_trigger_witness :
    drugStage1 [] true (fun _ => Except.ok none) 6
      [{ drug_name := "X", status := 3 }] = [{ drug_name := "X", status := 3 }] ∧
    cellStage1 [] true (fun _ => Except.error "down") (fun _ => Except.ok (none, none))
      [{ original_name := "Y", status := 2 }] = [{ original_name := "Y", status := 2 }] := by
  have h := staging_stage1_monotone_strict_trigger [] true (fun _ => Except.ok none) 6
    [{ drug_name := "X", status := 3 }] [] true (fun _ => Except.error "down")
    (fun _ => Except.ok (none, none)) [{ original_name := "Y", status := 2 }]
  exact ⟨h.2.1 (by decide), h.2.2.2 (by decide)⟩

/-- C5: in both stage-1 loops, an exception raised while resolving one row
(`.error` from the local parse or the API oracle) is caught for that row
alone: the row is recorded as a failed transition — status `-1` with the
relevant error code (drug pipeline) or message (cell-line pipeline) — and
every other row of the batch is processed exactly as it would be without
the failing row; no single-row exception aborts the batch. -/
theorem stage1_row_failure_isolated :
    ∀ (localDrugs : List LocalDrugRow) (isLocalD : Bool)
      (dcdbDrugApi : String → Except String (Option Drug)) (sid : ℤ)
      (l1 l2 : List DrugRow) (r : DrugRow) (e : String)
      (lcl : List (String × Option ℤ)) (isLocalC : Bool)
      (cosmicApi : String → Except String (Option String × Option String × Option String))
      (dcdbCellApi : String → Except String (Option String × Option String))
      (c1 c2 : List CellRow) (c : CellRow) (nm : String) (cid : ℤ) (e2 : String),
      (r.status = 0 →
        (getPubchemId localDrugs isLocalD dcdbDrugApi sid r.drug_name).1 =
          Except.error e →
        drugStage1 localDrugs isLocalD dcdbDrugApi sid (l1 ++ r :: l2) =
          drugStage1 localDrugs isLocalD dcdbDrugApi sid l1 ++
            failDrugRow r :: drugStage1 localDrugs isLocalD dcdbDrugApi sid l2 ∧
        (failDrugRow r).status = -1 ∧
        (failDrugRow r).error_code = some NOT_FOUND_IN_DCDB_CODE) ∧
      (c.status = 0 →
        localCellFind lcl c.original_name = some (nm, some cid) →
        cosmicApi (toString cid) = Except.error e2 →
        cellStage1 lcl isLocalC cosmicApi dcdbCellApi (c1 ++ c :: c2) =
          cellStage1 lcl isLocalC cosmicApi dcdbCellApi c1 ++
            failCellRow c e2 :: cellStage1 lcl isLocalC cosmicApi dcdbCellApi c2 ∧
        (failCellRow c e2).status = -1 ∧
        (failCellRow c e2).error_msg = some e2) := by
  intro localDrugs isLocalD dcdbDrugApi sid l1 l2 r e lcl isLocalC cosmicApi dcdbCellApi
    c1 c2 c nm cid e2
  constructor
  · intro h0 herr
    have hr : (resolveDrugRow localDrugs isLocalD dcdbDrugApi sid r).1 = failDrugRow r := by
      unfold resolveDrugRow
      rcases hg : getPubchemId localDrugs isLocalD dcdbDrugApi sid r.drug_name with ⟨res, n⟩
      rw [hg] at herr
      simp only at herr
      subst herr
      rfl
    refine ⟨?_, rfl, rfl⟩
    unfold drugStage1
    rw [List.map_append, List.map_cons, if_pos h0, hr]
  · intro h0 hfind hcos
    have hc : (resolveCellRow lcl isLocalC cosmicApi dcdbCellApi c).1 = failCellRow c e2 := by
      unfold resolveCellRow
      rw [hfind]
      dsimp only
      rw [hcos]
    refine ⟨?_, rfl, rfl⟩
    unfold cellStage1
    rw [List.map_append, List.map_cons, if_pos h0, hc]

/-- Witness for C5: a malformed local `cIds` value makes the drug row's
resolution raise, and a failing Cellosaurus call makes the cell row's
resolution raise; each is recorded as `-1` and the (empty) rest of the
batch is processed normally. -/
theorem stage1_row_failure_isolated_witness :
    (drugStage1 [{ drugName := "Bad", cIds := "oops" }] false (fun _ => Except.ok none) 6
        [{ drug_name := "Bad" }] =
      [failDrugRow { drug_name := "Bad" }] ∧
      (failDrugRow { drug_name := "Bad" }).status = -1 ∧
      (failDrugRow { drug_name := "Bad" }).error_code = some NOT_FOUND_IN_DCDB_CODE) ∧
    (cellStage1 [("C", some 5)] false (fun _ => Except.error "API Down")
        (fun _ => Except.ok (none, none)) [{ original_name := "C" }] =
      [failCellRow { original_name := "C" } "API Down"] ∧
      (failCellRow { original_name := "C" } "API Down").status = -1 ∧
      (failCellRow { original_name := "C" } "API Down").error_msg = some "API Down") := by
  have h := stage1_row_failure_isolated [{ drugName := "Bad", cIds := "oops" }] false
    (fun _ => Except.ok none) 6 [] [] { drug_name := "Bad" }
    "invalid literal for int() with base 10"
    [("C", some 5)] false (fun _ => Except.error "API Down")
    (fun _ => Except.ok (none, none)) [] [] { original_name := "C" } "C" 5 "API Down"
  exact ⟨h.1 rfl (by rfl), h.2 rfl (by rfl) (by rfl)⟩

/-- C8: with local mode enabled (`from_local=True`) and no match in the
local mirror, resolution fails immediately with terminal status `-1` (drug
pipeline: `NOT_FOUND_IN_DCDB_CODE`; cell-line pipeline: the message
`"Not found (local mode)"`) and the network fallback is called zero times
for such rows — in the aggregate, a stage over a table of such rows makes
zero fallback calls. -/
theorem local_mode_skips_network_fallback :
    ∀ (localDrugs : List LocalDrugRow)
      (dcdbDrugApi : String → Except String (Option Drug)) (sid : ℤ) (r : DrugRow)
      (dtable : List DrugRow)
      (lcl : List (String × Option ℤ))
      (cosmicApi : String → Except String (Option String × Option String × Option String))
      (dcdbCellApi : String → Except String (Option String × Option String))
      (c : CellRow) (ctable : List CellRow),
      (localDrugFind localDrugs r.drug_name = none →
        resolveDrugRow localDrugs true dcdbDrugApi sid r = (failDrugRow r, 0) ∧
        (failDrugRow r).status = -1 ∧
        (failDrugRow r).error_code = some NOT_FOUND_IN_DCDB_CODE) ∧
      ((∀ row ∈ dtable, localDrugFind localDrugs row.drug_name = none) →
        drugStage1Calls localDrugs true dcdbDrugApi sid dtable = 0) ∧
      (localCellFind lcl c.original_name = none →
        resolveCellRow lcl true cosmicApi dcdbCellApi c = (localModeCellRow c none, 0) ∧
        (localModeCellRow c none).status = -1 ∧
        (localModeCellRow c none).error_msg = some "Not found (local mode)") ∧
      ((∀ row ∈ ctable, localCellFind lcl row.original_name = none) →
        cellStage1Calls lcl true cosmicApi dcdbCellApi ctable = 0) := by
  intro localDrugs dcdbDrugApi sid r dtable lcl cosmicApi dcdbCellApi c ctable
  have hdrug : ∀ row : DrugRow, localDrugFind localDrugs row.drug_name = none →
      resolveDrugRow localDrugs true dcdbDrugApi sid row = (failDrugRow row, 0) := by
    intro row hfind
    unfold resolveDrugRow getPubchemId
    rw [hfind]
    rfl
  have hcell : ∀ row : CellRow, localCellFind lcl row.original_name = none →
      resolveCellRow lcl true cosmicApi dcdbCellApi row = (localModeCellRow row none, 0) := by
    intro row hfind
    unfold resolveCellRow
    rw [hfind]
    rfl
  refine ⟨fun hfind => ⟨hdrug r hfind, rfl, rfl⟩, ?_, fun hfind => ⟨hcell c hfind, rfl, rfl⟩, ?_⟩
  · intro hall
    unfold drugStage1Calls
    apply List.sum_eq_zero
    intro x hx
    obtain ⟨row, hrow, hxr⟩ := List.mem_map.mp hx
    have hmem := List.mem_of_mem_filter hrow
    rw [hdrug row (hall row hmem)] at hxr
    exact hxr.symm
  · intro hall
    unfold cellStage1Calls
    apply List.sum_eq_zero
    intro x hx
    obtain ⟨row, hrow, hxr⟩ := List.mem_map.mp hx
    have hmem := List.mem_of_mem_filter hrow
    rw [hcell row (hall row hmem)] at hxr
    exact hxr.symm

/-- Witness for C8: an empty local mirror, a `status 0` row in each
pipeline; resolution fails with `-1` and the fallback-call count is `0`. -/
theorem local_mode_skips_network_fallback_witness :
    (resolveDrugRow [] true (fun _ => Except.ok none) 6 { drug_name := "Nope" } =
      (failDrugRow { drug_name := "Nope" }, 0) ∧
      (failDrugRow { drug_name := "Nope" }).status = -1 ∧
      (failDrugRow { drug_name := "Nope" }).error_code = some NOT_FOUND_IN_DCDB_CODE) ∧
    drugStage1Calls [] true (fun _ => Except.ok none) 6 [{ drug_name := "Nope" }] = 0 ∧
    (resolveCellRow [] true (fun _ => Except.error "down") (fun _ => Except.ok (none, none))
        { original_name := "Nada" } =
      (localModeCellRow { original_name := "Nada" } none, 0) ∧
      (localModeCellRow { original_name := "Nada" } none).status = -1 ∧
      (localModeCellRow { original_name := "Nada" } none).error_msg =
        some "Not found (local mode)") ∧
    cellStage1Calls [] true (fun _ => Except.error "down") (fun _ => Except.ok (none, none))
      [{ original_name := "Nada" }] = 0 := by
  have h := local_mode_skips_network_fallback [] (fun _ => Except.ok none) 6
    { drug_name := "Nope" } [{ drug_name := "Nope" }] []
    (fun _ => Except.error "down") (fun _ => Except.ok (none, none))
    { original_name := "Nada" } [{ original_name := "Nada" }]
  exact ⟨h.1 rfl, h.2.1 (by intro row hrow; rfl), h.2.2.1 rfl,
    h.2.2.2 (by intro row hrow; rfl)⟩

/-! ## `pipeline/DCDB/orchestrator.py`: `_persist_experiments`

For each pending combination row the orchestrator resolves both drug names
and the cell-line name through the terminal-success (status 3) staging
maps; a row with any unresolved entity is skipped and counted.  Otherwise
it computes `scores = self.score_pipeline.run(...)` (the `(scores,
classification)` tuple, not unpacked) and calls

`self.experiment_pipeline.run(drug_ids=…, class_name=…, cell_line_id=…,
scores=…, drug_names=…, combination_id=…)`

inside `try/except`, marking the source row `processed` on success and
`error` on exception.

Python binds keyword arguments by name: a keyword that is not a parameter
of the callee raises `TypeError` before the callee's body runs, and a
parameter without a default that receives no value also raises
`TypeError`.  `ExperimentPipeline.run`'s parameters are
`(drug_ids, classification, cell_line_id, scores, drug_names,
combination_id)`; the orchestrator passes `class_name` instead of
`classification`. -/

/-- The parameter names of `ExperimentPipeline.run`
(`pipeline/DCDB/experiment_pipeline.py`), besides `self`; none has a
default value. -/
def expRunParamNames : List String :=
  ["drug_ids", "classification", "cell_line_id", "scores", "drug_names",
   "combination_id"]

/-- The keyword names used at the call site in
`DrugCombDBOrchestrator._persist_experiments`. -/
def orchestratorExpRunKwargs : List String :=
  ["drug_ids", "class_name", "cell_line_id", "scores", "drug_names",
   "combination_id"]

/-- Python keyword binding succeeds iff every passed keyword names a
parameter and every default-less parameter receives a value. -/
def kwargsBindOk (params kwargs : List String) : Bool :=
  kwargs.all (fun k => params.contains k) && params.all (fun p => kwargs.contains p)

/-- A pending combination row of the local mirror, as selected by
`_fetch_combinations`. -/
structure CombRow where
  combination_id : ℤ
  drug1_name : String
  drug2_name : String
  cell_line_name : String
  hsa : Option ℚ := none
  bliss : Option ℚ := none
  loewe : Option ℚ := none
  zip : Option ℚ := none
  classification : String := ""
deriving Repr, DecidableEq

/-- The `TypeError` raised when the call's keywords do not bind. -/
def classNameTypeError : String :=
  "TypeError: run() got an unexpected keyword argument: class_name"

/-- Model of `DrugCombDBOrchestrator._persist_experiments`.  `drugMap`/`cellMap`
are the name-to-id maps built from the status-3 staging rows; `expRun` is
the body of `ExperimentPipeline.run`, invoked only if the keywords bind.
Returns the `(combination_id, status)` updates written by
`_set_processing_status`, the success count and the skipped count. -/
def persistExperiments (getId : String → ℤ) (drugMap cellMap : String → Option String)
    (expRun : List String → String → String → (List Score × ℤ) → List String → ℤ →
      Except String ℤ)
    (combos : List CombRow) : List (ℤ × String) × ℕ × ℕ :=
  combos.foldl (fun acc comb =>
    let d1 := drugMap comb.drug1_name
    let d2 := drugMap comb.drug2_name
    let cl := cellMap comb.cell_line_name
    if !(truthyStr d1 && truthyStr d2 && truthyStr cl) then
      (acc.1, acc.2.1, acc.2.2 + 1)
    else
      let scores := scorePipelineRun getId comb.hsa comb.bliss comb.loewe comb.zip
      match (if kwargsBindOk expRunParamNames orchestratorExpRunKwargs
             then expRun [d1.getD "", d2.getD ""] comb.classification (cl.getD "")
                    scores [comb.drug1_name, comb.drug2_name] comb.combination_id
             else Except.error classNameTypeError) with
      | Except.ok _ => (acc.1 ++ [(comb.combination_id, "processed")], acc.2.1 + 1, acc.2.2)
      | Except.error _ => (acc.1 ++ [(comb.combination_id, "error")], acc.2.1, acc.2.2))
    ([], 0, 0)

/-- The spec's end-to-end combination row. -/
def scenarioRow : CombRow :=
  { combination_id := 1, drug1_name := "5-FU(approved)", drug2_name := "ABT-888",
    cell_line_name := "A2058", hsa := some (55369/10000), bliss := some (62566/10000),
    loewe := some (-(27507/10000)), zip := some (17183/10000),
    classification := "synergy" }

/-- A staging drug map in which both scenario drug names resolved. -/
def scenarioDrugMap : String → Option String := fun n =>
  if n = "5-FU(approved)" then some "CHEMBL185"
  else if n = "ABT-888" then some "CHEMBL506871"
  else none

/-- A staging cell map in which the scenario cell line resolved. -/
def scenarioCellMap : String → Option String := fun n =>
  if n = "A2058" then some "CVCL_1059" else none

/-- C6 (code bug): the keyword `class_name` is not a parameter of
`ExperimentPipeline.run`, so the orchestrator's call raises `TypeError`
inside the `try`, and a combination row whose two drugs and cell line all
resolved is marked `error` instead of `processed` — even though the
classification computed from its scores is `+1` with exactly 4 scores, as
the spec's end-to-end scenario requires.  The callee body (`expRun`) would
succeed, yet no experiment is persisted. -/
theorem persistExperiments_class_name_typeerror :
    kwargsBindOk expRunParamNames orchestratorExpRunKwargs = false ∧
    "class_name" ∈ orchestratorExpRunKwargs ∧
    "class_name" ∉ expRunParamNames ∧
    persistExperiments (fun _ => 1) scenarioDrugMap scenarioCellMap
      (fun _ _ _ _ _ _ => Except.ok 42) [scenarioRow] = ([(1, "error")], 0, 0) ∧
    (scorePipelineRun (fun _ => 1) scenarioRow.hsa scenarioRow.bliss
      scenarioRow.loewe scenarioRow.zip).2 = 1 ∧
    (scorePipelineRun (fun _ => 1) scenarioRow.hsa scenarioRow.bliss
      scenarioRow.loewe scenarioRow.zip).1.length = 4 := by
  refine ⟨by decide, by decide, by decide, by decide, ?_, ?_⟩
  · rw [scorePipelineRun_eq]
    simp only [scenarioRow, presentScores, scoreMappings, List.filterMap_cons,
      List.filterMap_nil, Option.map_some', List.map_cons, List.map_nil,
      List.sum_cons, List.sum_nil]
    norm_num [scoreVote, signSpec, eps]
  · have hfst := congrArg Prod.fst (scorePipelineRun_eq (fun _ => 1) scenarioRow.hsa
      scenarioRow.bliss scenarioRow.loewe scenarioRow.zip)
    rw [hfst, List.length_map]
    simp [scenarioRow, presentScores, scoreMappings]

/-! ## Drug-name normalization (`pipeline/dbdb_pipeline.py` 50-52)

The legacy, non-staged `DrugCombDBPipeline.run` loop normalizes each drug
name before per-drug resolution:

`if "(approved)" in drug: drug = drug.replace("(approved)", "").strip()`

modelled here over the character data with structural recursion (Python's
`in`, `str.replace` and `str.strip`).  The staged pipeline's
`DrugPipeline.__get_pubchem_id` (see `getPubchemId` above) performs no
such normalization: it queries the local mirror and the network with the
raw drug name. -/

/-- The marker `"(approved)"` as character data. -/
def approvedMarker : List Char := "(approved)".data

/-- Python `str.replace(marker, "")`: remove every occurrence of the marker
(fuel-structured recursion; the fuel is the list length, which bounds the
number of steps). -/
def removeMarkerAux : ℕ → List Char → List Char
  | 0, l => l
  | _ + 1, [] => []
  | n + 1, c :: cs =>
    if approvedMarker.isPrefixOf (c :: cs) then
      removeMarkerAux n ((c :: cs).drop approvedMarker.length)
    else c :: removeMarkerAux n cs

def removeMarker (l : List Char) : List Char := removeMarkerAux l.length l

/-- Python `str.strip()`: drop leading and trailing whitespace. -/
def stripChars (l : List Char) : List Char :=
  ((l.dropWhile Char.isWhitespace).reverse.dropWhile Char.isWhitespace).reverse

/-- Python `"(approved)" in drug`: substring containment over the char data. -/
def containsMarker : List Char → Bool
  | [] => approvedMarker.isEmpty
  | c :: cs => approvedMarker.isPrefixOf (c :: cs) || containsMarker cs

/-- The legacy loop's normalization: strip the `"(approved)"` marker (and
surrounding whitespace) when present, otherwise leave the name unchanged. -/
def stripApproved (s : String) : String :=
  if containsMarker s.data then ⟨stripChars (removeMarker s.data)⟩ else s

/-- The local `drugs`-mirror row for the normalized name `5-FU`. -/
def fiveFuRow : LocalDrugRow :=
  { drugName := "5-FU", drugNameOfficial := some "5-FU", cIds := "CIDs00003385",
    smilesString := some "FC1=CNC(=O)NC1=O" }

/-- C7 counterexample: the staged drug pipeline's lookup is made with the
raw, unnormalized name.  With the local mirror containing the normalized
name `5-FU`, local-mode resolution of `5-FU(approved)` returns no drug —
while the legacy normalization maps `5-FU(approved)` to `5-FU`, which the
very same lookup resolves. -/
theorem drug_name_normalization_counterexample :
    stripApproved "5-FU(approved)" = "5-FU" ∧
    (getPubchemId [fiveFuRow] true (fun _ => Except.ok none) 6 "5-FU(approved)").1 =
      Except.ok none ∧
    (getPubchemId [fiveFuRow] true (fun _ => Except.ok none) 6
        (stripApproved "5-FU(approved)")).1 =
      Except.ok (some
        { drug_id := "3385"
          drug_name := "5-FU"
          source_id := 6
          chemical_structure := some "FC1=CNC(=O)NC1=O" }) := by
  refine ⟨by decide, by rfl, by rfl⟩

/-- C7 (amended): the `"(approved)"` marker is stripped only by the legacy
non-staged `DrugCombDBPipeline.run` loop; the staged pipeline's
`__get_pubchem_id` queries with the raw name, so whenever no mirror row
carries the raw (marker-bearing) name itself, local-mode resolution fails
even if the normalized name is present. -/
theorem drug_name_normalization_legacy_only :
    ∀ (localDrugs : List LocalDrugRow)
      (dcdbApi : String → Except String (Option Drug)) (sid : ℤ) (name : String),
      stripApproved "5-FU(approved)" = "5-FU" ∧
      ((∀ row ∈ localDrugs, row.drugName ≠ name ∧ row.drugNameOfficial ≠ some name) →
        (getPubchemId localDrugs true dcdbApi sid name).1 = Except.ok none) := by
  intro localDrugs dcdbApi sid name
  refine ⟨by decide, fun hall => ?_⟩
  have hfind : localDrugFind localDrugs name = none := by
    unfold localDrugFind
    rw [List.find?_eq_none]
    intro row hrow
    obtain ⟨h1, h2⟩ := hall row hrow
    simp [h1, h2]
  unfold getPubchemId
  rw [hfind]
  rfl

/-- Witness for the amended C7 at the scenario name and mirror. -/
theorem drug_name_normalization_legacy_only_witness :
    stripApproved "5-FU(approved)" = "5-FU" ∧
    (getPubchemId [fiveFuRow] true (fun _ => Except.ok none) 6 "5-FU(approved)").1 =
      Except.ok none :=
  have h := drug_name_normalization_legacy_only [fiveFuRow]
    (fun _ => Except.ok none) 6 "5-FU(approved)"
  ⟨h.1, h.2 (by decide)⟩

end DCDB
